import Mathlib

/-!
Verification of the session synchronisation coordinator of the presenter
repository (src/app/lib/SessionManager.js) against its natural-language
specification.

The JavaScript code is embedded shallowly:

* JavaScript values appearing in the settings partition are embedded as the
  inductive type `JsVal`; the constructor `JsVal.undef` models the JavaScript
  value `undefined`.  Setting an object key to `undefined` keeps the key on
  the object, but JSON serialisation (used by `sendJSON`) drops such keys, so
  observable key presence over the wire is `jsonGet`, which treats an
  `undefined`-valued key as absent.
* JavaScript objects are embedded as association lists `List (String × JsVal)`
  in insertion order; `setKey` mirrors the semantics of both
  `obj[k] = v` and an object-literal override (an existing key keeps its
  position, a new key is appended).
* Handlers that can throw (a `TypeError` on a `null` dereference) or abort on
  a rejected repository lookup are embedded as functions returning a
  `HandlerResult` whose `ok` flag is `false` when the handler threw; the
  `session` and `msgs` fields are the state and messages at the point of the
  throw, since the JavaScript mutations already performed are kept.
* Numbers are embedded as `Int`; payload fields that may be absent
  (JavaScript `undefined`) are embedded as `Option`.
-/

namespace Presenter

/-- JavaScript values, as relevant to the settings partition.  `undef` models
the JavaScript value `undefined`, which JSON serialisation drops from
objects. -/
inductive JsVal where
  | undef : JsVal
  | jnull : JsVal
  | jbool : Bool → JsVal
  | jnum : Int → JsVal
  | jstr : String → JsVal
  | obj : List (String × JsVal) → JsVal
  | arr : List JsVal → JsVal

/-- JavaScript truthiness of a value (`NaN` is not modelled). -/
def truthy : JsVal → Bool
  | JsVal.undef => false
  | JsVal.jnull => false
  | JsVal.jbool b => b
  | JsVal.jnum n => decide (n ≠ 0)
  | JsVal.jstr s => decide (s ≠ "")
  | JsVal.obj _ => true
  | JsVal.arr _ => true

/-- First value stored under a key of a JavaScript object (objects have unique
keys, so the first match is the match). -/
def lookupKey : List (String × JsVal) → String → Option JsVal
  | [], _ => none
  | e :: rest, k => if e.1 = k then some e.2 else lookupKey rest k

/-- Assignment `obj[k] = v` / object-literal override: an existing key keeps
its position with the new value, a fresh key is appended. -/
def setKey (o : List (String × JsVal)) (k : String) (v : JsVal) :
    List (String × JsVal) :=
  if o.any (fun e => decide (e.1 = k)) then
    o.map (fun e => if e.1 = k then (k, v) else e)
  else o ++ [(k, v)]

/-- Path lookup as done by the `get-value` library: walk the object along the
dotted path, producing `undefined` as soon as a step is missing or the value
is not an object. -/
def getPath : JsVal → List String → JsVal
  | v, [] => v
  | JsVal.obj fields, k :: ks =>
      match lookupKey fields k with
      | some v => getPath v ks
      | none => JsVal.undef
  | _, _ :: _ => JsVal.undef

/-- A value the `deepmerge` library considers mergeable (a plain object or an
array). -/
def isMergeable : JsVal → Bool
  | JsVal.obj _ => true
  | JsVal.arr _ => true
  | _ => false

/-- The `deepmerge` library as configured in `SessionManager.onSettings`:
scalars overwrite, objects merge key by key (recursing only when the target
has the key and the source value is mergeable), and — because the code passes
`arrayMerge: ( _, source ) => source` — array-valued fields are replaced
wholesale by the incoming array.  The scalar-source fallthrough branches
mirror the library's `mergeObject` on a non-object source; they are
unreachable from `onSettings`, which only merges objects. -/
def deepmerge : JsVal → JsVal → JsVal
  | _, JsVal.arr xs => JsVal.arr xs
  | JsVal.arr _, JsVal.obj sf => JsVal.obj sf
  | t, JsVal.obj sf =>
      let te := match t with
        | JsVal.obj tf => tf
        | _ => ([] : List (String × JsVal))
      JsVal.obj ((sf.attach.map (fun e =>
        (e.1.1,
         if (lookupKey te e.1.1).isSome && isMergeable e.1.2 then
           deepmerge ((lookupKey te e.1.1).getD JsVal.undef) e.1.2
         else e.1.2))).foldl (fun d e => setKey d e.1 e.2) te)
  | JsVal.arr _, s => s
  | JsVal.obj tf, _ => JsVal.obj tf
  | _, _ => JsVal.obj []
termination_by _ s => sizeOf s
decreasing_by
  obtain ⟨⟨k, sv⟩, he⟩ := e
  have hm := List.sizeOf_lt_of_mem he
  simp only [Prod.mk.sizeOf_spec, JsVal.obj.sizeOf_spec] at *
  omega

/-- The `merge.all` entry point of the `deepmerge` library: fold the list of
objects into an empty object. -/
def mergeAllObjs (objs : List JsVal) : JsVal :=
  objs.foldl deepmerge (JsVal.obj [])

/-- Key lookup as observable over the wire: JSON serialisation drops keys
whose value is `undefined`. -/
def jsonGet (o : List (String × JsVal)) (k : String) : Option JsVal :=
  match lookupKey o k with
  | some JsVal.undef => none
  | some v => some v
  | none => none

/-- A line of content: a stable id and an ordinal position (`orderId`); the
display text plays no role in the coordinator and is omitted. -/
structure Line where
  id : String
  orderId : Int
deriving DecidableEq

/-- A content object (a Shabad or a Bani): an id and an ordered sequence of
lines, as returned by the content repository. -/
structure Content where
  id : String
  lines : List Line
deriving DecidableEq

/-- Modelled from the spec: a History Log entry (src/app/lib/History.js is not
under src/).  Per section 4.2 and the data model, an entry records the selected
line (tolerating `null`) and whether the selection was a content-boundary
transition. -/
structure HistoryEntry where
  line : Option Line
  isTransition : Bool
deriving DecidableEq

/-- Modelled from the spec: `History.update` / `Append` (src/app/lib/History.js
is not under src/) appends exactly one entry to the ordered, append-only
log. -/
def historyUpdate (h : List HistoryEntry) (line : Option Line) (t : Bool) :
    List HistoryEntry :=
  h ++ [{ line := line, isTransition := t }]

/-- Modelled from the spec: `History.getTransitionsOnly` / `TransitionsOnly`
(src/app/lib/History.js is not under src/) produces the subsequence of entries
appended with `isTransition = true`, preserving order. -/
def transitionsOnly (h : List HistoryEntry) : List HistoryEntry :=
  h.filter (fun e => e.isTransition)

/-- The session snapshot owned by the coordinator, mirroring the object built
in the `SessionManager` constructor.  `viewedLines` is a JavaScript `Set` in
insertion order; its elements are `Option String` because the code can add
`null` to it. -/
structure Session where
  bani : Option Content
  lineId : Option String
  shabad : Option Content
  viewedLines : List (Option String)
  mainLineId : Option String
  history : List HistoryEntry
  settings : List (String × JsVal)
  status : Option String

/-- Payload of an outbound message. -/
inductive Payload where
  | content : Option Content → Payload
  | line : Option String → Payload
  | viewed : List (Option String) → Payload
  | hist : List HistoryEntry → Payload
  | settingsObj : List (String × JsVal) → Payload
  | statusP : Option String → Payload

/-- An outbound message: `broadcast` goes to every connected client,
`sendTo` only to the client with the given host identifier. -/
inductive Msg where
  | broadcast : String → Payload → Msg
  | sendTo : String → String → Payload → Msg

/-- Result of running a handler: the session after the handler returned or
threw, the messages emitted before that point, and whether the handler ran to
completion (`ok = false` models a thrown `TypeError` or a rejected repository
lookup). -/
structure HandlerResult where
  session : Session
  msgs : List Msg
  ok : Bool

/-- The content repository interface (`getShabad`, `getShabadByOrderId`,
`getBaniLines`, `getShabadRange` from ./db); `none` models a lookup that
rejects or resolves to `undefined`, either of which aborts the calling
handler. -/
structure Repo where
  getShabadRange : Option (Int × Int)
  getShabad : Option String → Option Content
  getShabadByOrderId : Option Int → Option Content
  getBaniLines : String → Option Content

/-- Lodash `clamp( n, lo, hi )`: the upper bound is applied first, then the
lower bound. -/
def clamp (n lo hi : Int) : Int :=
  max lo (min n hi)

/-- Lines 130-135 of the source: `clamp( lineOrderId, ...lineOrderIdRange ) ||
null`.  An absent `lineOrderId` is `undefined`, which lodash turns into `NaN`
and `NaN || null` into `null`; a clamped value of `0` is falsy, so `0 || null`
also collapses to `null`. -/
def clampedLineOrderId (lineOrderId : Option Int) (lo hi : Int) : Option Int :=
  match lineOrderId with
  | none => none
  | some n => if clamp n lo hi = 0 then none else some (clamp n lo hi)

/-- Lines 95-97 of the source: `shabadOrderId` defaults to `null`, which
lodash coerces to `0` before clamping, and `clamp(...) || null` collapses a
clamped value of `0` to `null`. -/
def clampedShabadOrderId (shabadOrderId : Option Int) (lo hi : Int) :
    Option Int :=
  if clamp (shabadOrderId.getD 0) lo hi = 0 then none
  else some (clamp (shabadOrderId.getD 0) lo hi)

/-- JavaScript truthiness of an optional string (`undefined` and the empty
string are falsy). -/
def truthyStr : Option String → Bool
  | none => false
  | some s => decide (s ≠ "")

/-- JavaScript truthiness of an optional number (`undefined`, `null` and `0`
are falsy). -/
def truthyNum : Option Int → Bool
  | none => false
  | some n => decide (n ≠ 0)

/-- Lines 137-140 of the source: the target line id is the explicit `lineId`
if truthy, else the id of the line whose `orderId` equals the clamped order id
(`(... || {}).id` being `undefined` when there is no such line), else
`null`. -/
def resolveLineId (lines : List Line) (lineId : Option String)
    (clamped : Option Int) : Option String :=
  if truthyStr lineId then lineId
  else
    match lines.find? (fun l => decide (some l.orderId = clamped)) with
    | some l => if l.id = "" then none else some l.id
    | none => none

/-- JavaScript `Set.add`: append the element unless already present. -/
def addToSet (s : List (Option String)) (x : Option String) :
    List (Option String) :=
  if x ∈ s then s else s ++ [x]

/-- `SessionManager.onLine` (lines 127-156).  The handler reads
`shabad.lines` unconditionally, so when no shabad is active (`shabad` is
`null`, as after a bani selection) or the shabad's line list is empty, it
throws a `TypeError` before mutating anything or broadcasting: this is the
`ok = false` case.  Otherwise it resolves the line id, adds it to
`viewedLines` (even when it is `null`), broadcasts the line id and the viewed
lines, and appends one history entry whose transition flag is
`transition || newLineId === null`. -/
def onLine (sess : Session) (lineId : Option String) (lineOrderId : Option Int)
    (transition : Bool) : HandlerResult :=
  match sess.shabad with
  | none => { session := sess, msgs := [], ok := false }
  | some shabad =>
    match shabad.lines.head?, shabad.lines.getLast? with
    | some first, some last =>
      let clamped := clampedLineOrderId lineOrderId first.orderId last.orderId
      let newLineId := resolveLineId shabad.lines lineId clamped
      let viewed := addToSet sess.viewedLines newLineId
      let line := shabad.lines.find? (fun l => decide (newLineId = some l.id))
      { session :=
          { sess with
            viewedLines := viewed
            lineId := newLineId
            history := historyUpdate sess.history line
              (transition || decide (newLineId = none)) }
        msgs :=
          [Msg.broadcast "line" (Payload.line newLineId),
           Msg.broadcast "viewedLines" (Payload.viewed viewed)]
        ok := true }
    | _, _ => { session := sess, msgs := [], ok := false }

/-- Lines 95-102 of the source: fetch the shabad order-id range, clamp, then
fetch by order id if `shabadOrderId` is truthy, else by `shabadId`.  A failed
range lookup or a failed content lookup yields `none`, aborting `onShabad`
before any mutation. -/
def fetchShabad (repo : Repo) (shabadId : Option String)
    (shabadOrderId : Option Int) : Option Content :=
  match repo.getShabadRange with
  | none => none
  | some (lo, hi) =>
    if truthyNum shabadOrderId then
      repo.getShabadByOrderId (clampedShabadOrderId shabadOrderId lo hi)
    else repo.getShabad shabadId

/-- `SessionManager.onShabad` (lines 92-119).  On a successful lookup the
snapshot replaces the shabad, clears the bani, empties `viewedLines` and
clears `mainLineId`; the new shabad is broadcast, then the nested line
selection runs as a transition, then the transitions-only history is
rebroadcast.  If the nested `onLine` throws, the exception propagates: the
history rebroadcast is skipped and `ok` is `false`, but the snapshot mutation
already performed is kept. -/
def onShabad (repo : Repo) (sess : Session) (shabadId : Option String)
    (shabadOrderId : Option Int) (lineId : Option String)
    (lineOrderId : Option Int) : HandlerResult :=
  match fetchShabad repo shabadId shabadOrderId with
  | none => { session := sess, msgs := [], ok := false }
  | some shabad =>
    let sess1 := { sess with
      shabad := some shabad
      bani := none
      viewedLines := []
      mainLineId := none }
    let r := onLine sess1 lineId lineOrderId true
    { session := r.session
      msgs := Msg.broadcast "shabad" (Payload.content (some shabad))
        :: r.msgs
        ++ (if r.ok then
              [Msg.broadcast "history"
                (Payload.hist (transitionsOnly r.session.history))]
            else [])
      ok := r.ok }

/-- `SessionManager.onBani` (lines 186-207).  On a successful lookup the
snapshot replaces the bani, clears the shabad and empties `viewedLines`
(`mainLineId` is NOT cleared, unlike in `onShabad`); the bani is broadcast and
the first line is selected as a transition.  The code passes the bare first
line id string to `onLine`, whose object destructuring of a string yields
`undefined` for both `lineId` and `lineOrderId` — hence the `none, none`
arguments — and `onLine` then throws on `shabad.lines` because `shabad` was
just set to `null`, so the history rebroadcast is skipped.  A bani whose line
list is empty makes `const { id } = firstLine` throw before any mutation. -/
def onBani (repo : Repo) (sess : Session) (baniId : String) : HandlerResult :=
  match repo.getBaniLines baniId with
  | none => { session := sess, msgs := [], ok := false }
  | some bani =>
    match bani.lines.head? with
    | none => { session := sess, msgs := [], ok := false }
    | some _ =>
      let sess1 := { sess with
        bani := some bani
        shabad := none
        viewedLines := [] }
      let r := onLine sess1 none none true
      { session := r.session
        msgs := Msg.broadcast "bani" (Payload.content (some bani))
          :: r.msgs
          ++ (if r.ok then
                [Msg.broadcast "history"
                  (Payload.hist (transitionsOnly r.session.history))]
              else [])
        ok := r.ok }

/-- `SessionManager.clearCache` (lines 76-84): the disconnect handler sets the
host's settings entry to `undefined` (observably removing it from every JSON
view) and emits no message. -/
def clearCache (sess : Session) (host : String) : Session × List Msg :=
  ({ sess with settings := setKey sess.settings host JsVal.undef }, [])

/-- The dotted path checked by `getPublicSettings`. -/
def privatePath : List String :=
  ["security", "options", "private"]

/-- The per-entry redaction of `getPublicSettings`: an entry whose
`security.options.private` is truthy becomes `undefined` (dropped from JSON),
any other entry is kept unchanged. -/
def redactEntry (v : JsVal) : JsVal :=
  if truthy (getPath v privatePath) then JsVal.undef else v

/-- `SessionManager.getPublicSettings` (lines 251-258): reduce over
`Object.entries` of the settings partition, rebuilding the object with private
entries replaced by `undefined`. -/
def getPublicSettings (settings : List (String × JsVal)) :
    List (String × JsVal) :=
  settings.foldl (fun acc e => setKey acc e.1 (redactEntry e.2)) []

/-- The per-client settings object built inside `onSettings` (lines 237-242):
the public view with the recipient's own host key overwritten by `undefined`,
the recipient's full stored settings under `local`, and the global
configuration under `global`. -/
def settingsMsgFor (pub : List (String × JsVal))
    (allSettings : List (String × JsVal)) (globalCfg : JsVal) (host : String) :
    List (String × JsVal) :=
  setKey
    (setKey (setKey pub host JsVal.undef) "local"
      ((lookupKey allSettings host).getD JsVal.undef))
    "global" globalCfg

/-- Result of the settings handler: the new session, the new shared global
configuration held by the settings manager, and the per-client messages. -/
structure SettingsResult where
  session : Session
  globalCfg : JsVal
  msgs : List Msg

/-- `SessionManager.onSettings` (lines 214-244).  The `global` field of the
payload is merged into the shared configuration (the settings-manager module
is not under src/; modelled from the spec, `MergeGlobal` uses the same merge
rule).  The session settings become `merge.all([settings, rest,
{ [host]: local }])` with wholesale array replacement, and every connected
client receives its own customised settings object. -/
def onSettings (sess : Session) (globalCfg : JsVal) (host : String)
    (payload : List (String × JsVal)) (connectedHosts : List String) :
    SettingsResult :=
  let localVal := (lookupKey payload "local").getD JsVal.undef
  let globalFrag :=
    match lookupKey payload "global" with
    | some JsVal.undef => JsVal.obj []
    | some v => v
    | none => JsVal.obj []
  let rest := payload.filter (fun e => e.1 != "local" && e.1 != "global")
  let globalCfg1 := deepmerge globalCfg globalFrag
  let merged := mergeAllObjs
    [JsVal.obj sess.settings, JsVal.obj rest, JsVal.obj [(host, localVal)]]
  let newSettings := match merged with
    | JsVal.obj fs => fs
    | _ => []
  let pub := getPublicSettings newSettings
  { session := { sess with settings := newSettings }
    globalCfg := globalCfg1
    msgs := connectedHosts.map (fun h =>
      Msg.sendTo h "settings"
        (Payload.settingsObj (settingsMsgFor pub newSettings globalCfg1 h))) }

/-- `SessionManager.synchronise` (lines 59-70): push the full snapshot to the
newly connected client only, as per-field messages in source order; the final
settings message is the shared public view (`getPublicSettings`), with no
per-client customisation. -/
def synchronise (sess : Session) (host : String) : List Msg :=
  [(match sess.bani with
    | some bani => Msg.sendTo host "bani" (Payload.content (some bani))
    | none => Msg.sendTo host "shabad" (Payload.content sess.shabad)),
   Msg.sendTo host "line" (Payload.line sess.lineId),
   Msg.sendTo host "viewedLines" (Payload.viewed sess.viewedLines),
   Msg.sendTo host "mainLine" (Payload.line sess.mainLineId),
   Msg.sendTo host "status" (Payload.statusP sess.status),
   Msg.sendTo host "history" (Payload.hist (transitionsOnly sess.history)),
   Msg.sendTo host "settings"
     (Payload.settingsObj (getPublicSettings sess.settings))]

/-- The public-view portion of a per-client settings message: everything
except the `local` and `global` fields added by `onSettings`. -/
def publicPortion (o : List (String × JsVal)) : List (String × JsVal) :=
  o.filter (fun e => e.1 != "local" && e.1 != "global")

/-! Concrete data used by scenario evaluations, counterexamples and
witnesses. -/

/-- Scenario A's bani: id `japji` with lines `l1` (order 0) and `l2`
(order 1). -/
def japji : Content :=
  { id := "japji"
    lines := [{ id := "l1", orderId := 0 }, { id := "l2", orderId := 1 }] }

/-- A repository that resolves every bani lookup to `japji` and fails shabad
lookups. -/
def demoRepo : Repo :=
  { getShabadRange := some (1, 1430)
    getShabad := fun _ => none
    getShabadByOrderId := fun _ => none
    getBaniLines := fun _ => some japji }

/-- The session state built by the `SessionManager` constructor. -/
def freshSession : Session :=
  { bani := none, lineId := none, shabad := none, viewedLines := [],
    mainLineId := none, history := [], settings := [], status := none }

/-- A two-line shabad used by line-selection scenarios. -/
def demoShabad : Content :=
  { id := "s"
    lines := [{ id := "s1", orderId := 1 }, { id := "s2", orderId := 2 }] }

/-- A session with `demoShabad` active. -/
def shabadActiveSession : Session :=
  { freshSession with shabad := some demoShabad }

/-- A session with a bani active (shabad `null`), as left behind by a bani
selection. -/
def baniActiveSession : Session :=
  { freshSession with
    bani := some japji
    lineId := some "l1"
    viewedLines := [some "l1"] }

/-- A session with a previously highlighted main line. -/
def mainLineSession : Session :=
  { freshSession with mainLineId := some "m" }

/-- A session holding one settings entry for host `h1`. -/
def settingsSession : Session :=
  { freshSession with settings := [("h1", JsVal.jstr "v")] }

/-- A settings entry flagged private via `security.options.private`. -/
def privVal : JsVal :=
  JsVal.obj
    [("security", JsVal.obj [("options", JsVal.obj [("private", JsVal.jbool true)])]),
     ("x", JsVal.jnum 1)]

/-- A settings partition with one private and one public host entry. -/
def demoSettings : List (String × JsVal) :=
  [("h4", privVal), ("h5", JsVal.jstr "dark")]

/-- A repository whose ordinal range contains 0 and whose id lookups
succeed. -/
def rangeZeroRepo : Repo :=
  { getShabadRange := some (0, 500)
    getShabad := fun _ => some demoShabad
    getShabadByOrderId := fun _ => none
    getBaniLines := fun _ => none }

/-- A shabad whose first line sits at ordinal 0. -/
def zeroShabad : Content :=
  { id := "z"
    lines := [{ id := "a", orderId := 0 }, { id := "b", orderId := 3 }] }

/-- A session with `zeroShabad` active. -/
def zeroSession : Session :=
  { freshSession with shabad := some zeroShabad }

/-- A repository where every lookup fails. -/
def failRepo : Repo :=
  { getShabadRange := none
    getShabad := fun _ => none
    getShabadByOrderId := fun _ => none
    getBaniLines := fun _ => none }

/-- A repository whose shabad-by-id lookups succeed, for exercising a
successful `onShabad`. -/
def lineRepo : Repo :=
  { getShabadRange := some (1, 1430)
    getShabad := fun _ => some demoShabad
    getShabadByOrderId := fun _ => none
    getBaniLines := fun _ => none }

/-! Helper lemmas about the object and set embeddings. -/

theorem mem_setKey {o : List (String × JsVal)} {k : String} {v : JsVal}
    {e : String × JsVal} (h : e ∈ setKey o k v) :
    e = (k, v) ∨ (e ∈ o ∧ e.1 ≠ k) := by
  unfold setKey at h
  by_cases hc : o.any (fun e => decide (e.1 = k))
  · rw [if_pos hc] at h
    obtain ⟨a, ha, hae⟩ := List.mem_map.1 h
    by_cases hk : a.1 = k
    · rw [if_pos hk] at hae
      exact Or.inl hae.symm
    · rw [if_neg hk] at hae
      exact Or.inr ⟨hae ▸ ha, hae ▸ hk⟩
  · rw [if_neg hc] at h
    rcases List.mem_append.1 h with h1 | h1
    · refine Or.inr ⟨h1, fun hk => hc ?_⟩
      exact List.any_eq_true.2 ⟨e, h1, by simp [hk]⟩
    · exact Or.inl (by simpa using h1)

theorem setKey_key_val {o : List (String × JsVal)} {k : String} {v : JsVal}
    {e : String × JsVal} (h : e ∈ setKey o k v) (hk : e.1 = k) : e.2 = v := by
  rcases mem_setKey h with rfl | ⟨_, hne⟩
  · rfl
  · exact absurd hk hne

theorem any_key_eq_isSome (o : List (String × JsVal)) (k : String) :
    o.any (fun e => decide (e.1 = k)) = (lookupKey o k).isSome := by
  induction o with
  | nil => rfl
  | cons e rest ih => by_cases hk : e.1 = k <;> simp [lookupKey, hk, ih]

theorem lookupKey_append_of_none {a : List (String × JsVal)} {k : String}
    (b : List (String × JsVal)) (h : lookupKey a k = none) :
    lookupKey (a ++ b) k = lookupKey b k := by
  induction a with
  | nil => rfl
  | cons e rest ih =>
    by_cases hk : e.1 = k
    · simp [lookupKey, hk] at h
    · simp only [List.cons_append, lookupKey, if_neg hk] at h ⊢
      exact ih h

theorem lookupKey_append_of_some {a : List (String × JsVal)} {k : String}
    {v : JsVal} (b : List (String × JsVal)) (h : lookupKey a k = some v) :
    lookupKey (a ++ b) k = some v := by
  induction a with
  | nil => simp [lookupKey] at h
  | cons e rest ih =>
    by_cases hk : e.1 = k
    · simp only [lookupKey, if_pos hk] at h ⊢
      simpa using h
    · simp only [List.cons_append, lookupKey, if_neg hk] at h ⊢
      exact ih h

theorem setKey_of_lookup_none {o : List (String × JsVal)} {k : String}
    (v : JsVal) (h : lookupKey o k = none) : setKey o k v = o ++ [(k, v)] := by
  unfold setKey
  rw [any_key_eq_isSome, h]
  rfl

theorem lookupKey_map_replace (o : List (String × JsVal)) (k : String)
    (v : JsVal) (hc : (lookupKey o k).isSome) :
    lookupKey (o.map (fun e => if e.1 = k then (k, v) else e)) k = some v := by
  induction o with
  | nil => simp [lookupKey] at hc
  | cons e rest ih =>
    by_cases hk : e.1 = k
    · simp [lookupKey, hk]
    · have hrest : (lookupKey rest k).isSome := by
        simpa [lookupKey, hk] using hc
      simpa [lookupKey, hk] using ih hrest

theorem lookupKey_setKey_self (o : List (String × JsVal)) (k : String)
    (v : JsVal) : lookupKey (setKey o k v) k = some v := by
  unfold setKey
  rw [any_key_eq_isSome]
  by_cases hc : (lookupKey o k).isSome
  · rw [if_pos hc]
    exact lookupKey_map_replace o k v hc
  · rw [if_neg hc]
    have hnone : lookupKey o k = none := Option.not_isSome_iff_eq_none.1 hc
    rw [lookupKey_append_of_none _ hnone]
    simp [lookupKey]

theorem lookupKey_map_replace_other (o : List (String × JsVal)) (k : String)
    (v : JsVal) {j : String} (hj : j ≠ k) :
    lookupKey (o.map (fun e => if e.1 = k then (k, v) else e)) j
      = lookupKey o j := by
  have hkj : ¬ (k = j) := fun h => hj h.symm
  induction o with
  | nil => rfl
  | cons e rest ih =>
    simp only [List.map_cons]
    by_cases hk : e.1 = k
    · have hej : ¬ (e.1 = j) := by rw [hk]; exact hkj
      rw [if_pos hk]
      simp only [lookupKey, if_neg hkj, if_neg hej]
      exact ih
    · rw [if_neg hk]
      by_cases hej : e.1 = j
      · simp only [lookupKey, if_pos hej]
      · simp only [lookupKey, if_neg hej]
        exact ih

theorem lookupKey_setKey_other (o : List (String × JsVal)) (k : String)
    (v : JsVal) {j : String} (hj : j ≠ k) :
    lookupKey (setKey o k v) j = lookupKey o j := by
  unfold setKey
  rw [any_key_eq_isSome]
  by_cases hc : (lookupKey o k).isSome
  · rw [if_pos hc]
    exact lookupKey_map_replace_other o k v hj
  · rw [if_neg hc]
    cases hoj : lookupKey o j with
    | some w => exact lookupKey_append_of_some _ hoj
    | none =>
      rw [lookupKey_append_of_none _ hoj]
      have hkj : ¬ (k = j) := fun h => hj h.symm
      simp [lookupKey, hkj]

theorem jsonGet_eq_none_of_undef {o : List (String × JsVal)} {H : String}
    (h : ∀ e ∈ o, e.1 = H → e.2 = JsVal.undef) : jsonGet o H = none := by
  induction o with
  | nil => rfl
  | cons e rest ih =>
    by_cases hk : e.1 = H
    · have h2 : e.2 = JsVal.undef := h e (List.mem_cons_self e rest) hk
      simp [jsonGet, lookupKey, hk, h2]
    · have := ih (fun x hx => h x (List.mem_cons_of_mem _ hx))
      simpa [jsonGet, lookupKey, hk] using this

theorem redactEntry_undef : redactEntry JsVal.undef = JsVal.undef := rfl

theorem gps_undef_pres {H : String} :
    ∀ (s acc : List (String × JsVal)),
      (∀ e ∈ acc, e.1 = H → e.2 = JsVal.undef) →
      (∀ e ∈ s, e.1 = H → e.2 = JsVal.undef) →
      ∀ e ∈ s.foldl (fun a e => setKey a e.1 (redactEntry e.2)) acc,
        e.1 = H → e.2 = JsVal.undef := by
  intro s
  induction s with
  | nil => exact fun acc hacc _ e he hk => hacc e he hk
  | cons x rest ih =>
    intro acc hacc hs e he hk
    refine ih (setKey acc x.1 (redactEntry x.2)) ?_
      (fun y hy => hs y (List.mem_cons_of_mem _ hy)) e he hk
    intro y hy hyk
    rcases mem_setKey hy with rfl | ⟨hy', _⟩
    · have hx2 : x.2 = JsVal.undef := hs x (List.mem_cons_self _ _) hyk
      rw [hx2, redactEntry_undef]
    · exact hacc y hy' hyk

theorem foldl_redact_append :
    ∀ (s acc : List (String × JsVal)),
      (s.map Prod.fst).Nodup →
      (∀ k ∈ s.map Prod.fst, lookupKey acc k = none) →
      s.foldl (fun a e => setKey a e.1 (redactEntry e.2)) acc
        = acc ++ s.map (fun e => (e.1, redactEntry e.2)) := by
  intro s
  induction s with
  | nil => intro acc _ _; simp
  | cons x rest ih =>
    intro acc hnd hnone
    have hx : lookupKey acc x.1 = none := by
      refine hnone x.1 ?_
      rw [List.map_cons]
      exact List.mem_cons_self _ _
    have hnd' : (rest.map Prod.fst).Nodup := by
      simpa using (List.nodup_cons.1 (by simpa using hnd)).2
    have hxnot : x.1 ∉ rest.map Prod.fst :=
      (List.nodup_cons.1 (by simpa using hnd)).1
    have hnone' : ∀ k ∈ rest.map Prod.fst,
        lookupKey (acc ++ [(x.1, redactEntry x.2)]) k = none := by
      intro k hkmem
      have h1 : lookupKey acc k = none := by
        refine hnone k ?_
        rw [List.map_cons]
        exact List.mem_cons_of_mem _ hkmem
      have hne : x.1 ≠ k := fun h => hxnot (h ▸ hkmem)
      rw [lookupKey_append_of_none _ h1]
      simp [lookupKey, hne]
    rw [List.foldl_cons, setKey_of_lookup_none _ hx, ih _ hnd' hnone']
    simp

theorem getPublicSettings_eq_map {s : List (String × JsVal)}
    (h : (s.map Prod.fst).Nodup) :
    getPublicSettings s = s.map (fun e => (e.1, redactEntry e.2)) := by
  unfold getPublicSettings
  rw [foldl_redact_append s [] h (fun k _ => rfl)]
  simp

theorem lookupKey_map_redact {s : List (String × JsVal)} {H : String}
    {v : JsVal} (h : lookupKey s H = some v) :
    lookupKey (s.map (fun e => (e.1, redactEntry e.2))) H
      = some (redactEntry v) := by
  induction s with
  | nil => simp [lookupKey] at h
  | cons e rest ih =>
    by_cases hk : e.1 = H
    · simp only [lookupKey, if_pos hk, Option.some.injEq] at h
      simp [lookupKey, hk, h]
    · simp only [lookupKey, if_neg hk] at h
      simpa [lookupKey, hk] using ih h

theorem mem_addToSet {s : List (Option String)} {x y : Option String}
    (h : y ∈ addToSet s x) : y ∈ s ∨ y = x := by
  unfold addToSet at h
  by_cases hx : x ∈ s
  · rw [if_pos hx] at h
    exact Or.inl h
  · rw [if_neg hx] at h
    rcases List.mem_append.1 h with h1 | h1
    · exact Or.inl h1
    · exact Or.inr (by simpa using h1)

theorem addToSet_nil (x : Option String) : addToSet [] x = [x] := by
  simp [addToSet]

theorem onLine_shape (sess : Session) (lid : Option String)
    (loid : Option Int) (t : Bool) :
    ((onLine sess lid loid t).ok = false
        ∧ (onLine sess lid loid t).session = sess
        ∧ (onLine sess lid loid t).msgs = [])
    ∨ ((onLine sess lid loid t).ok = true
        ∧ (onLine sess lid loid t).session.viewedLines
            = addToSet sess.viewedLines (onLine sess lid loid t).session.lineId
        ∧ (onLine sess lid loid t).session.mainLineId = sess.mainLineId
        ∧ (onLine sess lid loid t).session.shabad = sess.shabad
        ∧ (onLine sess lid loid t).session.bani = sess.bani) := by
  cases hs : sess.shabad with
  | none => left; simp [onLine, hs]
  | some sh =>
    cases hh : sh.lines.head? with
    | none => left; simp [onLine, hs, hh]
    | some fl =>
      cases hl : sh.lines.getLast? with
      | none => left; simp [onLine, hs, hh, hl]
      | some ll => right; simp [onLine, hs, hh, hl]

theorem resolveLineId_none (lines : List Line) :
    resolveLineId lines none none = none := by
  have hfind :
      List.find? (fun l => decide (some l.orderId = (none : Option Int))) lines
        = none :=
    List.find?_eq_none.2 (fun x _ => by simp)
  unfold resolveLineId
  rw [if_neg (by simp [truthyStr]), hfind]

/-! Theorems settling the claims. -/

/-- C1: evaluation of the code at Scenario A's input (bani `japji` with lines
`l1`, `l2`, selected on a fresh session).  The spec claims the coordinator
broadcasts the bani, then `line = "l1"`, then `viewedLines` containing
exactly `l1`, and appends one transition history entry.  The code instead
broadcasts only the bani and then throws: `onBani` passes the bare first-line
id string to `onLine` (so `lineId` destructures to `undefined`) and `onLine`
dereferences `shabad.lines` after `shabad` was just set to `null`.  No line,
viewedLines or history broadcast happens, no history entry is appended, and
`lineId` stays unchanged. -/
theorem c1_bani_selection_scenario_a :
    onBani demoRepo freshSession "japji"
      = { session := { freshSession with
            bani := some japji, shabad := none, viewedLines := [] }
          msgs := [Msg.broadcast "bani" (Payload.content (some japji))]
          ok := false } := rfl

/-- C2 counterexample: a line event while a bani is the active content
(shabad is `null`).  The claim says every line event broadcasts the resolved
id and appends exactly one history entry; here the handler throws on
`shabad.lines` before broadcasting or appending anything, leaving the session
unchanged. -/
theorem c2_counterexample :
    onLine baniActiveSession (some "l2") none false
      = { session := baniActiveSession, msgs := [], ok := false } := rfl

/-- C2 amended: for every line event while the active content is a shabad
with a non-empty line sequence, the handler resolves the target line id by
the source's priority (`resolveLineId`: explicit truthy `lineId`, else the
line at the clamped `lineOrderId` — a clamped value of 0 counting as no
ordinal — else null), broadcasts the resolved id followed by the updated
viewed-lines set, and appends exactly one History entry whose transition flag
is `isTransitionHint OR (resolved id is null)`.  (With a bani active the
handler instead throws, per the counterexample.) -/
theorem c2_amended_line_resolution (sess : Session) (sh : Content)
    (fl ll : Line) (lid : Option String) (loid : Option Int) (t : Bool)
    (hs : sess.shabad = some sh) (hf : sh.lines.head? = some fl)
    (hl : sh.lines.getLast? = some ll) :
    (onLine sess lid loid t).ok = true
    ∧ (onLine sess lid loid t).msgs
        = [Msg.broadcast "line" (Payload.line
            (resolveLineId sh.lines lid
              (clampedLineOrderId loid fl.orderId ll.orderId))),
           Msg.broadcast "viewedLines" (Payload.viewed
            (addToSet sess.viewedLines
              (resolveLineId sh.lines lid
                (clampedLineOrderId loid fl.orderId ll.orderId))))]
    ∧ (onLine sess lid loid t).session.history
        = sess.history
          ++ [{ line := sh.lines.find? (fun l => decide
                  (resolveLineId sh.lines lid
                    (clampedLineOrderId loid fl.orderId ll.orderId)
                    = some l.id))
                isTransition := t || decide
                  (resolveLineId sh.lines lid
                    (clampedLineOrderId loid fl.orderId ll.orderId)
                    = none) }] := by
  refine ⟨?_, ?_, ?_⟩ <;> simp [onLine, hs, hf, hl, historyUpdate]

/-- C2 amended, witness: the shabad-active instance with an explicit
`lineId = "s2"`. -/
theorem c2_amended_line_resolution_witness :
    (onLine shabadActiveSession (some "s2") none false).ok = true
    ∧ (onLine shabadActiveSession (some "s2") none false).msgs
        = [Msg.broadcast "line" (Payload.line
            (resolveLineId demoShabad.lines (some "s2")
              (clampedLineOrderId none 1 2))),
           Msg.broadcast "viewedLines" (Payload.viewed
            (addToSet shabadActiveSession.viewedLines
              (resolveLineId demoShabad.lines (some "s2")
                (clampedLineOrderId none 1 2))))]
    ∧ (onLine shabadActiveSession (some "s2") none false).session.history
        = shabadActiveSession.history
          ++ [{ line := demoShabad.lines.find? (fun l => decide
                  (resolveLineId demoShabad.lines (some "s2")
                    (clampedLineOrderId none 1 2) = some l.id))
                isTransition := false || decide
                  (resolveLineId demoShabad.lines (some "s2")
                    (clampedLineOrderId none 1 2) = none) }] :=
  c2_amended_line_resolution shabadActiveSession demoShabad
    { id := "s1", orderId := 1 } { id := "s2", orderId := 2 }
    (some "s2") none false rfl rfl rfl

/-- C3 counterexample: with `demoShabad` (line ids `s1`, `s2`) active, a line
event carrying the unvalidated explicit id `zzz` followed by a line event
with no selector leaves `viewedLines = [some "zzz", none]`: it is not a
subset of the content's line ids, and the null-resolving event did change it
(null IS added), contradicting the claim. -/
theorem c3_counterexample :
    (onLine (onLine shabadActiveSession (some "zzz") none false).session
        none none false).session.viewedLines = [some "zzz", none]
    ∧ ¬ (∀ x ∈ (onLine
          (onLine shabadActiveSession (some "zzz") none false).session
          none none false).session.viewedLines,
          ∃ l ∈ demoShabad.lines, x = some l.id)
    ∧ (onLine (onLine shabadActiveSession (some "zzz") none false).session
          none none false).session.viewedLines
        ≠ (onLine shabadActiveSession (some "zzz") none false).session.viewedLines := by
  refine ⟨rfl, by decide, by decide⟩

/-- C3 amended: content selections do reset `viewedLines` — after a
successful `onShabad` it is exactly the singleton of the newly resolved line
id, and after a bani selection it is empty — but a line selection always
inserts its resolved id, including `null` on failed resolution and including
unvalidated client-supplied ids, so every element of `viewedLines` after a
line event is a previously present element or the event's resolved id, not
necessarily a line id of the active content. -/
theorem c3_amended_viewed_lines :
    (∀ (sess : Session) (lid : Option String) (loid : Option Int) (t : Bool)
        (x : Option String),
        x ∈ (onLine sess lid loid t).session.viewedLines →
        x ∈ sess.viewedLines ∨ x = (onLine sess lid loid t).session.lineId)
    ∧ (∀ (repo : Repo) (sess : Session) (sid : Option String)
        (soid : Option Int) (lid : Option String) (loid : Option Int),
        (onShabad repo sess sid soid lid loid).ok = true →
        (onShabad repo sess sid soid lid loid).session.viewedLines
          = [(onShabad repo sess sid soid lid loid).session.lineId])
    ∧ (∀ (repo : Repo) (sess : Session) (baniId : String) (bani : Content),
        repo.getBaniLines baniId = some bani → bani.lines ≠ [] →
        (onBani repo sess baniId).session.viewedLines = []) := by
  refine ⟨?_, ?_, ?_⟩
  · intro sess lid loid t x hx
    rcases onLine_shape sess lid loid t with ⟨_, hsess, _⟩ | ⟨_, hv, _, _, _⟩
    · rw [hsess] at hx
      exact Or.inl hx
    · rw [hv] at hx
      exact mem_addToSet hx
  · intro repo sess sid soid lid loid hok
    cases hfetch : fetchShabad repo sid soid with
    | none =>
      simp only [onShabad, hfetch] at hok
      simp at hok
    | some sh =>
      simp only [onShabad, hfetch] at hok ⊢
      rcases onLine_shape { sess with shabad := some sh, bani := none, viewedLines := [], mainLineId := none } lid loid true with
        ⟨hok', _, _⟩ | ⟨_, hv, _, _, _⟩
      · rw [hok'] at hok
        cases hok
      · rw [hv]
        simp [addToSet_nil]
  · intro repo sess baniId bani hb hne
    obtain ⟨fl, rest, hcons⟩ : ∃ fl rest, bani.lines = fl :: rest := by
      cases h : bani.lines with
      | nil => exact absurd h hne
      | cons a l => exact ⟨a, l, rfl⟩
    simp [onBani, hb, hcons, onLine]

/-- C3 amended, witness: the three conjuncts instantiated — a concrete line
event whose added id is the new `lineId`, a successful `onShabad` whose
viewed set is the singleton of its resolved line, and a bani selection whose
viewed set is empty. -/
theorem c3_amended_viewed_lines_witness :
    ((some "s2" : Option String) ∈ shabadActiveSession.viewedLines
      ∨ (some "s2" : Option String)
          = (onLine shabadActiveSession (some "s2") none false).session.lineId)
    ∧ (onShabad lineRepo freshSession (some "x") none (some "s1") none).session.viewedLines
        = [(onShabad lineRepo freshSession (some "x") none (some "s1") none).session.lineId]
    ∧ (onBani demoRepo freshSession "japji").session.viewedLines = [] :=
  ⟨c3_amended_viewed_lines.1 shabadActiveSession (some "s2") none false
      (some "s2") (by decide),
   c3_amended_viewed_lines.2.1 lineRepo freshSession (some "x") none
      (some "s1") none rfl,
   c3_amended_viewed_lines.2.2 demoRepo freshSession "japji" japji rfl
      (by decide)⟩

/-- C4: every settings event sends each connected client the per-client
customised message built by `settingsMsgFor`, and for every host `H` that
message has no key `H` in its public-view portion (the recipient's own key is
overwritten with `undefined`, which JSON drops), carries `H`'s own stored
settings under `local`, and carries the post-merge shared global
configuration under `global`. -/
theorem c4_settings_message_customised (sess : Session) (cfg : JsVal)
    (host : String) (payload : List (String × JsVal))
    (connectedHosts : List String) :
    (onSettings sess cfg host payload connectedHosts).msgs
      = connectedHosts.map (fun h =>
          Msg.sendTo h "settings" (Payload.settingsObj
            (settingsMsgFor
              (getPublicSettings
                (onSettings sess cfg host payload connectedHosts).session.settings)
              (onSettings sess cfg host payload connectedHosts).session.settings
              (onSettings sess cfg host payload connectedHosts).globalCfg h)))
    ∧ (∀ (pub allSettings : List (String × JsVal)) (g : JsVal) (H : String),
        jsonGet (publicPortion (settingsMsgFor pub allSettings g H)) H = none
        ∧ lookupKey (settingsMsgFor pub allSettings g H) "local"
            = some ((lookupKey allSettings H).getD JsVal.undef)
        ∧ lookupKey (settingsMsgFor pub allSettings g H) "global" = some g) := by
  refine ⟨rfl, ?_⟩
  intro pub allSettings g H
  refine ⟨?_, ?_, ?_⟩
  · apply jsonGet_eq_none_of_undef
    intro e he hk
    have hmem := List.mem_filter.1 he
    have hcond := hmem.2
    rcases mem_setKey hmem.1 with rfl | ⟨h1, _⟩
    · simp at hcond
    · rcases mem_setKey h1 with rfl | ⟨h2, _⟩
      · simp at hcond
      · exact setKey_key_val h2 hk
  · unfold settingsMsgFor
    rw [lookupKey_setKey_other _ _ _ (by decide : ("local" : String) ≠ "global")]
    exact lookupKey_setKey_self _ _ _
  · unfold settingsMsgFor
    exact lookupKey_setKey_self _ _ _

/-- C5: the public view drops precisely the entries whose
`security.options.private` is truthy — a private host's whole entry becomes
JSON-absent regardless of its other fields — and keeps every non-private
entry unchanged. -/
theorem c5_public_view_redaction (s : List (String × JsVal)) (H : String)
    (v : JsVal) (hnd : (s.map Prod.fst).Nodup)
    (hv : lookupKey s H = some v) :
    (truthy (getPath v privatePath) = true →
      jsonGet (getPublicSettings s) H = none)
    ∧ (truthy (getPath v privatePath) = false →
      lookupKey (getPublicSettings s) H = some v) := by
  rw [getPublicSettings_eq_map hnd]
  have hm := lookupKey_map_redact hv
  constructor
  · intro ht
    have hred : redactEntry v = JsVal.undef := by simp [redactEntry, ht]
    rw [hred] at hm
    unfold jsonGet
    rw [hm]
  · intro hf
    have hred : redactEntry v = v := by simp [redactEntry, hf]
    rw [hred] at hm
    exact hm

/-- C5 witness: host `h4` is private (all its fields are dropped together),
host `h5` is public and survives unchanged. -/
theorem c5_public_view_redaction_witness :
    jsonGet (getPublicSettings demoSettings) "h4" = none
    ∧ lookupKey (getPublicSettings demoSettings) "h5"
        = some (JsVal.jstr "dark") :=
  ⟨(c5_public_view_redaction demoSettings "h4" privVal (by decide) rfl).1 rfl,
   (c5_public_view_redaction demoSettings "h5" (JsVal.jstr "dark") (by decide)
      rfl).2 rfl⟩

/-- C6: a disconnect for host `h` emits no message and sets `h`'s settings
entry to `undefined`, so the subsequently computed public view has no
JSON-observable key `h`. -/
theorem c6_remove_then_public_view (sess : Session) (host : String) :
    (clearCache sess host).2 = []
    ∧ jsonGet (getPublicSettings (clearCache sess host).1.settings) host
        = none := by
  refine ⟨rfl, ?_⟩
  apply jsonGet_eq_none_of_undef
  intro e he hk
  refine gps_undef_pres (setKey sess.settings host JsVal.undef) []
    (by simp) ?_ e he hk
  intro y hy hyk
  exact setKey_key_val hy hyk

/-- C7 counterexample: a bani selection with a previously highlighted main
line.  The claim says `mainLineId` is cleared to none; the code's `onBani`
(unlike `onShabad`) never touches `mainLineId`, which keeps its prior
value. -/
theorem c7_counterexample :
    (onBani demoRepo mainLineSession "japji").session.mainLineId = some "m"
    ∧ (onBani demoRepo mainLineSession "japji").session.mainLineId ≠ none :=
  ⟨rfl, by decide⟩

/-- C7 amended: after a bani-selection event whose lookup succeeds on a
non-empty bani, the shabad field is cleared and `viewedLines` is reset to
empty, but `mainLineId` retains its previous value (bani selection, unlike
shabad selection, does not clear it); the handler then throws in the nested
line selection. -/
theorem c7_amended_bani_frame (repo : Repo) (sess : Session) (baniId : String)
    (bani : Content) (hb : repo.getBaniLines baniId = some bani)
    (hne : bani.lines ≠ []) :
    (onBani repo sess baniId).session.shabad = none
    ∧ (onBani repo sess baniId).session.viewedLines = []
    ∧ (onBani repo sess baniId).session.bani = some bani
    ∧ (onBani repo sess baniId).session.mainLineId = sess.mainLineId
    ∧ (onBani repo sess baniId).ok = false := by
  obtain ⟨fl, rest, hcons⟩ : ∃ fl rest, bani.lines = fl :: rest := by
    cases h : bani.lines with
    | nil => exact absurd h hne
    | cons a l => exact ⟨a, l, rfl⟩
  refine ⟨?_, ?_, ?_, ?_, ?_⟩ <;> simp [onBani, hb, hcons, onLine]

/-- C7 amended, witness: the concrete bani selection of `japji` over a
session whose main line was `m`. -/
theorem c7_amended_bani_frame_witness :
    (onBani demoRepo mainLineSession "japji").session.shabad = none
    ∧ (onBani demoRepo mainLineSession "japji").session.viewedLines = []
    ∧ (onBani demoRepo mainLineSession "japji").session.bani = some japji
    ∧ (onBani demoRepo mainLineSession "japji").session.mainLineId
        = mainLineSession.mainLineId
    ∧ (onBani demoRepo mainLineSession "japji").ok = false :=
  c7_amended_bani_frame demoRepo mainLineSession "japji" japji rfl (by decide)

/-- C8: a failed repository lookup (range, shabad by id or ordinal, or bani
lines) aborts the selection handler before any mutation: the session is
returned exactly as it was and no message is emitted. -/
theorem c8_lookup_failure_aborts :
    (∀ (repo : Repo) (sess : Session) (sid : Option String)
        (soid : Option Int) (lid : Option String) (loid : Option Int),
        fetchShabad repo sid soid = none →
        onShabad repo sess sid soid lid loid
          = { session := sess, msgs := [], ok := false })
    ∧ (∀ (repo : Repo) (sess : Session) (baniId : String),
        repo.getBaniLines baniId = none →
        onBani repo sess baniId
          = { session := sess, msgs := [], ok := false }) := by
  constructor
  · intro repo sess sid soid lid loid hf
    simp [onShabad, hf]
  · intro repo sess baniId hb
    simp [onBani, hb]

/-- C8 witness: the all-failing repository aborts both selection handlers on
a fresh session. -/
theorem c8_lookup_failure_aborts_witness :
    onShabad failRepo freshSession (some "sh") none none none
      = { session := freshSession, msgs := [], ok := false }
    ∧ onBani failRepo freshSession "b"
      = { session := freshSession, msgs := [], ok := false } :=
  ⟨c8_lookup_failure_aborts.1 failRepo freshSession (some "sh") none none none
      rfl,
   c8_lookup_failure_aborts.2 failRepo freshSession "b" rfl⟩

/-- C9 counterexample: synchronising a client whose host `h1` has a stored
settings entry.  The claim says the final message is that client's customised
settings view (own host key removed); the code sends the shared public view,
whose payload still contains key `h1`. -/
theorem c9_counterexample :
    (synchronise settingsSession "h1").getLast?
      = some (Msg.sendTo "h1" "settings"
          (Payload.settingsObj [("h1", JsVal.jstr "v")]))
    ∧ jsonGet [("h1", JsVal.jstr "v")] "h1" = some (JsVal.jstr "v") :=
  ⟨rfl, rfl⟩

/-- C9 amended: a new connection receives, addressed to that client only (no
broadcast), the ordered per-field sequence: active content with bani taking
precedence over shabad, current line id, viewed-lines set, highlighted line
id, status, transitions-only history, and finally the shared public settings
view — identical for every client, with no per-client customisation. -/
theorem c9_amended_synchronise (sess : Session) (host : String) :
    synchronise sess host
      = [(match sess.bani with
          | some bani => Msg.sendTo host "bani" (Payload.content (some bani))
          | none => Msg.sendTo host "shabad" (Payload.content sess.shabad)),
         Msg.sendTo host "line" (Payload.line sess.lineId),
         Msg.sendTo host "viewedLines" (Payload.viewed sess.viewedLines),
         Msg.sendTo host "mainLine" (Payload.line sess.mainLineId),
         Msg.sendTo host "status" (Payload.statusP sess.status),
         Msg.sendTo host "history" (Payload.hist (transitionsOnly sess.history)),
         Msg.sendTo host "settings"
           (Payload.settingsObj (getPublicSettings sess.settings))]
    ∧ ∀ m ∈ synchronise sess host, ∃ e p, m = Msg.sendTo host e p := by
  refine ⟨rfl, ?_⟩
  intro m hm
  cases hb : sess.bani with
  | none =>
    simp [synchronise, hb] at hm
    rcases hm with rfl | rfl | rfl | rfl | rfl | rfl | rfl <;> exact ⟨_, _, rfl⟩
  | some b =>
    simp [synchronise, hb] at hm
    rcases hm with rfl | rfl | rfl | rfl | rfl | rfl | rfl <;> exact ⟨_, _, rfl⟩

/-- C9 amended, witness: the line message of a fresh-session synchronisation
is addressed to the connecting client. -/
theorem c9_amended_synchronise_witness :
    ∃ e p, Msg.sendTo "h9" "line" (Payload.line freshSession.lineId)
        = Msg.sendTo "h9" e p :=
  (c9_amended_synchronise freshSession "h9").2
    (Msg.sendTo "h9" "line" (Payload.line freshSession.lineId))
    (List.Mem.tail _ (List.Mem.head _))

/-- C10: a `shabadOrderId` of 0 (or an absent one) is falsy, so the handler
fetches by `shabadId` even when 0 lies inside the repository ordinal range;
likewise in line selection a `lineOrderId` whose clamped value is 0 collapses
to null (`clamp(...) || null`), so absent an explicit `lineId` the resolved
line id is null. -/
theorem c10_zero_ordinal_is_absent :
    (∀ (repo : Repo) (sid : Option String) (soid : Option Int) (lo hi : Int),
        repo.getShabadRange = some (lo, hi) →
        (soid = none ∨ soid = some 0) →
        fetchShabad repo sid soid = repo.getShabad sid)
    ∧ (∀ (sess : Session) (sh : Content) (fl ll : Line) (n : Int) (t : Bool),
        sess.shabad = some sh → sh.lines.head? = some fl →
        sh.lines.getLast? = some ll → clamp n fl.orderId ll.orderId = 0 →
        (onLine sess none (some n) t).session.lineId = none
        ∧ (onLine sess none (some n) t).msgs
            = [Msg.broadcast "line" (Payload.line none),
               Msg.broadcast "viewedLines"
                 (Payload.viewed (addToSet sess.viewedLines none))]) := by
  constructor
  · intro repo sid soid lo hi hr hsoid
    unfold fetchShabad
    rw [hr]
    rcases hsoid with rfl | rfl <;> simp [truthyNum]
  · intro sess sh fl ll n t hs hf hl hc
    have hclamped : clampedLineOrderId (some n) fl.orderId ll.orderId = none := by
      simp [clampedLineOrderId, hc]
    constructor <;>
      simp [onLine, hs, hf, hl, hclamped, resolveLineId_none]

/-- C10 witness: with repository range `(0, 500)` a `shabadOrderId` of 0 is
fetched by id, and with a shabad whose line `a` sits at ordinal 0 a
`lineOrderId` of 0 resolves to null rather than to line `a`. -/
theorem c10_zero_ordinal_is_absent_witness :
    fetchShabad rangeZeroRepo (some "x") (some 0)
      = rangeZeroRepo.getShabad (some "x")
    ∧ ((onLine zeroSession none (some 0) false).session.lineId = none
       ∧ (onLine zeroSession none (some 0) false).msgs
           = [Msg.broadcast "line" (Payload.line none),
              Msg.broadcast "viewedLines"
                (Payload.viewed (addToSet zeroSession.viewedLines none))]) :=
  ⟨c10_zero_ordinal_is_absent.1 rangeZeroRepo (some "x") (some 0) 0 500 rfl
      (Or.inr rfl),
   c10_zero_ordinal_is_absent.2 zeroSession zeroShabad
      { id := "a", orderId := 0 } { id := "b", orderId := 3 } 0 false
      rfl rfl rfl (by decide)⟩

end Presenter
